import Mathlib

/-!
Verification of the TwitterBot posting core.

Shallow embedding of `src/services/aiService.js` and
`src/services/twitterService.js`.  JavaScript strings are modelled as
`List Char` (one element per UTF-16 code unit; all constants involved are
ASCII), numbers that are used as integers as `Nat`/`Int`, and the
floating-point error rate of the delay policy as `ℚ` (for sample sizes of at
most 10 and the thresholds 0.5 / 0.3 / 0.1 the double comparisons of the
source agree exactly with the rational ones).  File and network effects are
made explicit: file contents are passed as values and returned, and the
provider endpoint is an oracle `Nat → ProviderResp` indexed by the number of
provider calls already made.
-/

set_option maxRecDepth 100000

namespace TwitterBot

/-- The characters of a string literal. -/
def str (s : String) : List Char := s.data

/-! ## aiService.js -/

/-- `REQUIRED_TAGS` constant (aiService.js line 10). -/
def REQUIRED_TAGS : List Char := str "@giverep @PawtatoFinance $REP"

/-- The body-to-tweet step shared by every branch of `generateTweet`
(aiService.js lines 136–149, 222–238 and 254–261): append a space and the
required tags; if the result exceeds 280 characters, truncate the body to
`280 - REQUIRED_TAGS.length - 1` characters, append `"..."`, and re-append
the space and the tags. -/
def generateTweetFromBody (generatedText : List Char) : List Char :=
  let tweetText := generatedText ++ ' ' :: REQUIRED_TAGS
  if 280 < tweetText.length then
    let maxMainTextLength := 280 - REQUIRED_TAGS.length - 1
    let truncatedText := generatedText.take maxMainTextLength ++ str "..."
    truncatedText ++ ' ' :: REQUIRED_TAGS
  else
    tweetText

/-! ## twitterService.js : history store and delay policy -/

/-- One per-account outcome summary inside a history entry
(twitterService.js lines 164–171). -/
structure AccountOutcome where
  accountNumber : Nat
  success : Bool
  simulated : Bool
  tweetId : Option (List Char)
  errorMsg : Option (List Char)
deriving DecidableEq

/-- One entry of `tweet_history.json` (twitterService.js lines 161–172). -/
structure TweetRecord where
  timestamp : List Char
  text : List Char
  accounts : List AccountOutcome
deriving DecidableEq

/-- A structured provider error: optional numeric code plus message. -/
structure TwitterErr where
  code : Option Nat
  message : List Char
deriving DecidableEq

/-- Outcome of one `postTweetWithClient` call
(twitterService.js lines 311–315 and 355–359). -/
structure PostOutcome where
  success : Bool
  tweetId : Option (List Char)
  error : Option TwitterErr
  accountNumber : Nat
deriving DecidableEq

/-- The `tweetRecord` constructed by `saveTweetHistory`
(twitterService.js lines 161–172). -/
def mkTweetRecord (timestamp tweetText : List Char) (results : List PostOutcome) :
    TweetRecord :=
  { timestamp := timestamp
    text := tweetText
    accounts := results.map (fun r =>
      { accountNumber := r.accountNumber
        success := r.success
        simulated := false
        tweetId := if r.success then some (r.tweetId.getD (str "unknown")) else none
        errorMsg := if r.success then none
                    else some ((r.error.map (·.message)).getD (str "Unknown error")) }) }

/-- `saveTweetHistory` (twitterService.js lines 145–189), with the prior
file contents passed in and the written contents returned: push the new
record, then keep only the last 100 entries
(`history.slice(history.length - 100)`). -/
def saveTweetHistory (prior : List TweetRecord) (timestamp tweetText : List Char)
    (results : List PostOutcome) : List TweetRecord :=
  let history := prior ++ [mkTweetRecord timestamp tweetText results]
  if 100 < history.length then history.drop (history.length - 100) else history

/-- The scan loop of `calculateSmartDelay` (twitterService.js lines 241–248):
walk the (already reversed) history newest-to-oldest, collecting the first
outcome for the account in each entry, while fewer than `n` have been
collected. -/
def collectRecent (accountNumber : Nat) : List TweetRecord → Nat → List AccountOutcome
  | _, 0 => []
  | [], _ + 1 => []
  | t :: rest, n + 1 =>
    match t.accounts.find? (fun a => a.accountNumber == accountNumber) with
    | some a => a :: collectRecent accountNumber rest n
    | none => collectRecent accountNumber rest (n + 1)

/-- `calculateSmartDelay` (twitterService.js lines 232–273).  `history = none`
models a null/undefined history argument.  The error rate is computed in `ℚ`,
which agrees with the source's double arithmetic for all sample sizes ≤ 10
against the thresholds 0.5, 0.3 and 0.1. -/
def calculateSmartDelay (accountNumber : Nat) (history : Option (List TweetRecord)) :
    Nat :=
  match history with
  | none => 30000
  | some h =>
    if h.length = 0 then 30000
    else
      let accountHistory := collectRecent accountNumber h.reverse 10
      if accountHistory.length < 3 then 30000
      else
        let errorCount := (accountHistory.filter (fun t => !t.success)).length
        let errorRate : ℚ := (errorCount : ℚ) / (accountHistory.length : ℚ)
        if 1/2 < errorRate then 120000
        else if 3/10 < errorRate then 60000
        else if 1/10 < errorRate then 45000
        else 30000

/-- Specification-side description of the delay policy's sample: the
outcomes for the account in the at most 10 most recent history entries that
contain one, scanning newest to oldest. -/
def sampledOutcomes (accountNumber : Nat) (h : List TweetRecord) : List AccountOutcome :=
  (h.reverse.filterMap
    (fun t => t.accounts.find? (fun a => a.accountNumber == accountNumber))).take 10

/-- Specification-side error rate over the sampled outcomes. -/
def errorRateOf (accountNumber : Nat) (h : List TweetRecord) : ℚ :=
  let s := sampledOutcomes accountNumber h
  ((s.filter (fun t => !t.success)).length : ℚ) / (s.length : ℚ)

/-! ## twitterService.js : the posting primitive `postTweetWithClient` -/

/-- One reply of the provider endpoint `twitterClient.v2.tweet`:
`ok none` is a response with no `data.id` (or no `data`/null response),
`ok (some id)` is a response whose `data.id` is the string `id` (the empty
string models a falsy id), and `err e` is a raised structured error. -/
inductive ProviderResp where
  | ok (id : Option (List Char))
  | err (e : TwitterErr)
deriving DecidableEq

/-- Result of the inner `try` block of `postTweetWithClient`
(twitterService.js lines 290–315): either the posted tweet's remote id, or
the raised error (validation errors and the invalid-response error carry no
numeric code). -/
inductive TryResult where
  | posted (id : List Char)
  | thrown (e : TwitterErr)
deriving DecidableEq

/-- The inner `try` block of `postTweetWithClient`
(twitterService.js lines 290–315): validate the text, call the provider,
and require a truthy `response.data.id`. -/
def tryPostOnce (provider : Nat → ProviderResp) (tweetText : List Char)
    (callIdx : Nat) : TryResult :=
  if tweetText.length = 0 then
    .thrown ⟨none, str "Tweet text is empty"⟩
  else if 280 < tweetText.length then
    .thrown ⟨none, str "Tweet text exceeds maximum length of 280 characters"⟩
  else
    match provider callIdx with
    | .err e => .thrown e
    | .ok none => .thrown ⟨none, str "Invalid response from Twitter API"⟩
    | .ok (some id) =>
      if id = [] then .thrown ⟨none, str "Invalid response from Twitter API"⟩
      else .posted id

/-- The provider calls made by one pass of the inner `try` block: none when
validation rejects the text, one otherwise. -/
def callsMade (tweetText : List Char) : List (List Char) :=
  if tweetText.length = 0 then []
  else if 280 < tweetText.length then []
  else [tweetText]

/-- `"@giverep"`, the required mention token tested by the duplicate-content
handler (twitterService.js lines 338–341). -/
def giverepToken : List Char := str "@giverep"

/-- `startsWith l pat` is JavaScript's `l.startsWith(pat)` on the character
lists. -/
def startsWith : List Char → List Char → Bool
  | _, [] => true
  | [], _ :: _ => false
  | c :: cs, p :: ps => c = p && startsWith cs ps

/-- `firstOccur pat l` is JavaScript's `l.indexOf(pat)` (`none` for `-1`):
the least index at which `pat` occurs in `l`. -/
def firstOccur (pat : List Char) : List Char → Option Nat
  | [] => if startsWith [] pat then some 0 else none
  | c :: rest =>
    if startsWith (c :: rest) pat then some 0
    else (firstOccur pat rest).map (· + 1)

/-- The duplicate-content mutation (twitterService.js lines 334–345): insert
`"[" ++ stamp ++ "] "` immediately before the first `"@giverep"` when the
text contains that token, else append `" [" ++ stamp ++ "]"`. -/
def addTimestamp (tweetText stamp : List Char) : List Char :=
  match firstOccur giverepToken tweetText with
  | some tagIndex =>
    tweetText.take tagIndex ++ ('[' :: stamp ++ [']', ' ']) ++ tweetText.drop tagIndex
  | none => tweetText ++ (' ' :: '[' :: stamp ++ [']'])

/-- Observable trace of one `postTweetWithClient` call: the returned result,
the texts each (recursive) invocation received, the texts actually sent to
the provider, the `saveFailedTweet` writes, and the sleeps in ms. -/
structure PostTrace where
  result : PostOutcome
  attempts : List (List Char)
  providerCalls : List (List Char)
  failedSaves : List (List Char × Nat)
  sleeps : List Nat
deriving DecidableEq

/-- The successful return (twitterService.js lines 311–315). -/
def okTrace (accountNumber : Nat) (tweetText id : List Char) : PostTrace :=
  { result := { success := true, tweetId := some id, error := none,
                accountNumber := accountNumber }
    attempts := [tweetText]
    providerCalls := [tweetText]
    failedSaves := []
    sleeps := [] }

/-- The terminal failure return (twitterService.js lines 352–359):
`saveFailedTweet` then a failed result carrying the error. -/
def failTrace (accountNumber : Nat) (tweetText : List Char) (e : TwitterErr) :
    PostTrace :=
  { result := { success := false, tweetId := none, error := some e,
                accountNumber := accountNumber }
    attempts := [tweetText]
    providerCalls := callsMade tweetText
    failedSaves := [(tweetText, accountNumber)]
    sleeps := [] }

/-- `postTweetWithClient` (twitterService.js lines 283–369).
`provider` is the tweet endpoint, indexed by the number of provider calls
already made in this call chain (`callIdx`); `clock` gives the `HH:MM:SS`
timestamp taken at the `callIdx`-th call.  `retryDelay` is
`config.twitterConfig?.retryDelay` (seconds).  The two equations are the
source's `retryCount > 0` guards resolved: with `retryCount = 0` both the
429 and the 187 conditions at lines 322 and 332 are false and any error is
terminal; with `retryCount > 0` each retry recurses with `retryCount - 1`
and one more provider call made. -/
def postTweetWithClient (provider : Nat → ProviderResp) (clock : Nat → List Char)
    (accountNumber : Nat) (retryDelay : Option Nat) :
    Nat → List Char → Nat → PostTrace
  | 0, tweetText, callIdx =>
    match tryPostOnce provider tweetText callIdx with
    | .posted id => okTrace accountNumber tweetText id
    | .thrown e => failTrace accountNumber tweetText e
  | retryCount + 1, tweetText, callIdx =>
    match tryPostOnce provider tweetText callIdx with
    | .posted id => okTrace accountNumber tweetText id
    | .thrown e =>
      if e.code = some 429 then
        let waitTime := (retryDelay.getD 300) * 1000
        let t := postTweetWithClient provider clock accountNumber retryDelay
          retryCount tweetText (callIdx + 1)
        { result := t.result
          attempts := tweetText :: t.attempts
          providerCalls := callsMade tweetText ++ t.providerCalls
          failedSaves := t.failedSaves
          sleeps := waitTime :: t.sleeps }
      else if e.code = some 187 then
        let stamp := clock callIdx
        let uniqueTweet := addTimestamp tweetText stamp
        let t := postTweetWithClient provider clock accountNumber retryDelay
          retryCount uniqueTweet (callIdx + 1)
        { result := t.result
          attempts := tweetText :: t.attempts
          providerCalls := callsMade tweetText ++ t.providerCalls
          failedSaves := t.failedSaves
          sleeps := 2000 :: t.sleeps }
      else failTrace accountNumber tweetText e

/-! ## twitterService.js : failure queue and `retryFailedTweets` -/

/-- One entry of `failed_tweets.json` (twitterService.js lines 212–216). -/
structure FailedRecord where
  timestamp : List Char
  text : List Char
  accountNumber : Nat
deriving DecidableEq

/-- A Twitter client object; only the account number is observable
(the session handle is opaque). -/
structure Client where
  accountNumber : Nat
deriving DecidableEq

/-- `saveFailedTweet` (twitterService.js lines 196–224), with the prior
file contents passed in and the written contents returned; `prior = none`
models an absent or unparseable file (read as `[]`). -/
def saveFailedTweet (prior : Option (List FailedRecord)) (timestamp tweetText : List Char)
    (accountNumber : Nat) : List FailedRecord :=
  (prior.getD []) ++ [⟨timestamp, tweetText, accountNumber⟩]

/-- The contents of `failed_tweets.json` as `retryFailedTweets` sees them:
the file may be absent, present but not valid JSON, or a parsed list. -/
inductive QueueFile where
  | absent
  | unparseable
  | parsed (l : List FailedRecord)
deriving DecidableEq

/-- One replay call made by `retryFailedTweets`
(twitterService.js line 483): `postTweetWithClient(text, clientObj, config, 1)`. -/
structure ReplayCall where
  accountNumber : Nat
  text : List Char
  retries : Nat
deriving DecidableEq

/-- One step of the grouping loop (twitterService.js lines 458–463): append
the record to its account's group, creating the key at the end on first
sight.  The groups object is modelled as an association list in key
insertion order. -/
def addToGroup : List (Nat × List FailedRecord) → FailedRecord →
    List (Nat × List FailedRecord)
  | [], r => [(r.accountNumber, [r])]
  | (k, g) :: rest, r =>
    if k = r.accountNumber then (k, g ++ [r]) :: rest
    else (k, g) :: addToGroup rest r

/-- `tweetsByAccount` (twitterService.js lines 457–463). -/
def groupByAccount (l : List FailedRecord) : List (Nat × List FailedRecord) :=
  l.foldl addToGroup []

/-- Property access `tweetsByAccount[accountNumber]`. -/
def lookupGroup : List (Nat × List FailedRecord) → Nat → Option (List FailedRecord)
  | [], _ => none
  | (k, g) :: rest, a => if k = a then some g else lookupGroup rest a

/-- `retryFailedTweets` (twitterService.js lines 430–500), with the queue
file passed in; returns the boolean result, the file contents after the
call, and the `postTweetWithClient` calls made, in order.  A JavaScript
`for...in` loop visits the integer-like keys of `tweetsByAccount` in
ascending numeric order, hence the sort of the key list. -/
def retryFailedTweets (twitterClients : List Client) (file : QueueFile) :
    Bool × QueueFile × List ReplayCall :=
  match file with
  | .absent => (false, .absent, [])
  | .unparseable => (false, .unparseable, [])
  | .parsed failedTweets =>
    if failedTweets.length = 0 then (false, .parsed failedTweets, [])
    else
      let tweetsByAccount := groupByAccount failedTweets
      let keys := List.insertionSort (· ≤ ·) (tweetsByAccount.map Prod.fst)
      let calls := keys.flatMap (fun accountNumber =>
        match twitterClients.find? (fun c => c.accountNumber == accountNumber) with
        | none => []
        | some clientObj =>
          match lookupGroup tweetsByAccount accountNumber with
          | some accountTweets =>
            accountTweets.map (fun tweet => ⟨clientObj.accountNumber, tweet.text, 1⟩)
          | none => [])
      (true, .parsed [], calls)

/-! ## twitterService.js : `lazyLoadTwitterClient` -/

/-- Credentials parsed from one line of `accounts.txt`
(twitterService.js lines 536–544). -/
structure AccountCreds where
  appKey : List Char
  appSecret : List Char
  accessToken : List Char
  accessSecret : List Char
  accountNumber : Nat
deriving DecidableEq

/-- JavaScript `s.split(sep)` for a one-character separator:
`"a,".split(',') = ["a", ""]`, `"".split(',') = [""]`. -/
def splitOn (sep : Char) : List Char → List (List Char)
  | [] => [[]]
  | c :: rest =>
    if c = sep then [] :: splitOn sep rest
    else
      match splitOn sep rest with
      | [] => [[c]]
      | l :: ls => (c :: l) :: ls

/-- Whether a character is removed by JavaScript `trim` (the ASCII
whitespace characters; the source's lines contain no exotic whitespace). -/
def isJsSpace (c : Char) : Bool :=
  c = ' ' || c = '\t' || c = '\n' || c = '\r' || c = '\x0b' || c = '\x0c'

/-- JavaScript `s.trim()`. -/
def jsTrim (l : List Char) : List Char :=
  ((l.dropWhile isJsSpace).reverse.dropWhile isJsSpace).reverse

/-- The skip test of the scan loop (twitterService.js line 526):
`line.trim() === '' || line.trim().startsWith('#')`. -/
def isSkippable (line : List Char) : Bool :=
  jsTrim line = [] || startsWith (jsTrim line) (str "#")

/-- Specification-side: the surviving data lines of a credentials file —
the non-blank non-comment lines, in file order. -/
def survivingDataLines (fileContent : List Char) : List (List Char) :=
  (splitOn '\n' fileContent).filter (fun l => !isSkippable l)

/-- The file scan of `lazyLoadTwitterClient` (twitterService.js
lines 518–551).  `lineCount` is the 1-based physical line index; the line's
account number is computed (line 533) as
`lineCount - (number of blank/comment lines in the WHOLE file)`, computed in
`Int` because the source's subtraction can go below zero. -/
def lazyLoadAccount (fileContent : List Char) (accountNumber : Nat) :
    Option AccountCreds :=
  let lines := splitOn '\n' fileContent
  let skippedTotal := (lines.filter isSkippable).length
  (lines.enumFrom 1).foldl
    (fun account p =>
      let lineCount := p.1
      let line := p.2
      if isSkippable line then account
      else
        match (splitOn ',' line).map jsTrim with
        | [appKey, appSecret, accessToken, accessSecret] =>
          if (lineCount : Int) - (skippedTotal : Int) = (accountNumber : Int) then
            if appKey ≠ [] ∧ appSecret ≠ [] ∧ accessToken ≠ [] ∧ accessSecret ≠ [] then
              some ⟨appKey, appSecret, accessToken, accessSecret, accountNumber⟩
            else account
          else account
        | _ => account)
    none

/-- `lazyLoadTwitterClient` (twitterService.js lines 508–575), with the
contents of `accounts.txt` passed in; returns the found client (if any) and
the updated clients list (the source mutates the array by `push`). -/
def lazyLoadTwitterClient (accountNumber : Nat) (twitterClients : List Client)
    (fileContent : List Char) : Option Client × List Client :=
  match twitterClients.find? (fun c => c.accountNumber == accountNumber) with
  | some existingClient => (some existingClient, twitterClients)
  | none =>
    match lazyLoadAccount fileContent accountNumber with
    | some account =>
      let client : Client := ⟨account.accountNumber⟩
      (some client, twitterClients ++ [client])
    | none => (none, twitterClients)

/-! ## Theorems -/

/-- Claim C1.  The claim states that the tweet returned by `generateTweet`
always has length at most 280, the truncation branch cutting the body to
`280 - tagLength - 1` characters so that the final tweet respects the
ceiling.  This is false: the truncation branch also appends `"..."` after
the cut, so for any body longer than 250 characters the final tweet has
exactly 283 characters.  Witnessed here at a body of 251 `'a'`s. -/
theorem generateTweet_truncated_exceeds_ceiling :
    (List.replicate 251 'a').length + 1 + REQUIRED_TAGS.length = 281 ∧
    (generateTweetFromBody (List.replicate 251 'a')).length = 283 ∧
    280 < (generateTweetFromBody (List.replicate 251 'a')).length := by
  refine ⟨by decide, ?_, ?_⟩ <;> decide

/-- Claim C2.  The claim states that `lazyLoadTwitterClient N` finds the
`N`-th surviving (non-blank, non-comment) data line, counted in file order
starting at 1.  This is false: line 533 of twitterService.js subtracts the
number of blank/comment lines of the WHOLE file (including lines after the
data line) from the physical line number.  For the file `"a,b,c,d\n"` the
single surviving data line parses into exactly four non-empty fields, yet
requesting account 1 finds nothing — the code assigns that line the number
`1 - 1 = 0`. -/
theorem lazyLoad_misnumbers_first_data_line :
    lazyLoadTwitterClient 1 [] (str "a,b,c,d\n") = (none, []) ∧
    survivingDataLines (str "a,b,c,d\n") = [str "a,b,c,d"] ∧
    (splitOn ',' (str "a,b,c,d")).map jsTrim = [str "a", str "b", str "c", str "d"] ∧
    lazyLoadAccount (str "a,b,c,d\n") 0 =
      some ⟨str "a", str "b", str "c", str "d", 0⟩ := by
  refine ⟨?_, ?_, ?_, ?_⟩ <;> decide

/-- Claim C6.  After any append via `saveTweetHistory` the stored history
has at most 100 entries, ends with the new record, and is a tail of the
pushed list (so only the oldest entries, at the front, are ever evicted);
appending to a history of exactly 100 entries evicts exactly the oldest
one. -/
theorem saveTweetHistory_bounded (prior : List TweetRecord)
    (timestamp tweetText : List Char) (results : List PostOutcome) :
    (saveTweetHistory prior timestamp tweetText results).length ≤ 100 ∧
    (saveTweetHistory prior timestamp tweetText results).getLast?
      = some (mkTweetRecord timestamp tweetText results) ∧
    saveTweetHistory prior timestamp tweetText results
      = (prior ++ [mkTweetRecord timestamp tweetText results]).drop
          (prior.length + 1 - 100) ∧
    (prior.length = 100 →
      saveTweetHistory prior timestamp tweetText results
        = prior.drop 1 ++ [mkTweetRecord timestamp tweetText results]) := by
  set r := mkTweetRecord timestamp tweetText results with hr
  have key : saveTweetHistory prior timestamp tweetText results
      = if 100 < prior.length + 1 then (prior ++ [r]).drop (prior.length + 1 - 100)
        else prior ++ [r] := by
    unfold saveTweetHistory
    rw [← hr]
    simp
  rw [key]
  by_cases h : 100 < prior.length + 1
  · rw [if_pos h]
    have hk : prior.length + 1 - 100 ≤ prior.length := by omega
    refine ⟨?_, ?_, rfl, ?_⟩
    · rw [List.length_drop]
      simp only [List.length_append, List.length_cons, List.length_nil]
      omega
    · rw [List.drop_append_of_le_length hk, List.getLast?_concat]
    · intro h100
      have h1 : prior.length + 1 - 100 = 1 := by omega
      rw [h1, List.drop_append_of_le_length (by omega : 1 ≤ prior.length)]
  · rw [if_neg h]
    have h0 : prior.length + 1 - 100 = 0 := by omega
    refine ⟨?_, List.getLast?_concat _, by rw [h0, List.drop_zero], ?_⟩
    · simp only [List.length_append, List.length_cons, List.length_nil]
      omega
    · intro h100; omega

/-- Witness for claim C6 at a concrete 100-entry history: the append keeps
the bound and evicts exactly the oldest entry. -/
theorem saveTweetHistory_bounded_witness :
    (saveTweetHistory (List.replicate 100 ⟨[], [], []⟩) [] [] []).length ≤ 100 ∧
    saveTweetHistory (List.replicate 100 ⟨[], [], []⟩) [] [] []
      = (List.replicate 100 (⟨[], [], []⟩ : TweetRecord)).drop 1 ++
          [mkTweetRecord [] [] []] :=
  ⟨(saveTweetHistory_bounded (List.replicate 100 ⟨[], [], []⟩) [] [] []).1,
   (saveTweetHistory_bounded (List.replicate 100 ⟨[], [], []⟩) [] [] []).2.2.2
     (by simp)⟩

/-- The early-exit collection loop equals take-of-filterMap over the
reversed history. -/
theorem collectRecent_eq_take (acct : Nat) :
    ∀ (l : List TweetRecord) (n : Nat),
      collectRecent acct l n
        = (l.filterMap
            (fun t => t.accounts.find? (fun a => a.accountNumber == acct))).take n := by
  intro l
  induction l with
  | nil => intro n; cases n <;> simp [collectRecent]
  | cons t rest ih =>
    intro n
    cases n with
    | zero => simp [collectRecent]
    | succ k =>
      cases hf : t.accounts.find? (fun a => a.accountNumber == acct) with
      | some a => simp [collectRecent, hf, ih]
      | none => simp [collectRecent, hf, ih]

/-- `calculateSmartDelay` on a present history, characterized through the
specification-side sample and error rate. -/
theorem calculateSmartDelay_some (acct : Nat) (h : List TweetRecord) :
    calculateSmartDelay acct (some h)
      = if (sampledOutcomes acct h).length < 3 then 30000
        else if 1/2 < errorRateOf acct h then 120000
        else if 3/10 < errorRateOf acct h then 60000
        else if 1/10 < errorRateOf acct h then 45000
        else 30000 := by
  have hsam : collectRecent acct h.reverse 10 = sampledOutcomes acct h := by
    rw [collectRecent_eq_take]; rfl
  by_cases hnil : h.length = 0
  · have he : h = [] := List.length_eq_zero.mp hnil
    subst he
    simp [calculateSmartDelay, sampledOutcomes]
  · simp only [calculateSmartDelay]
    rw [if_neg hnil]
    simp only [hsam]
    rfl

/-- Claim C3.  `calculateSmartDelay` samples the outcomes for the account in
the at most 10 most recent history entries containing one (newest first);
with an absent history, or fewer than 3 sampled outcomes, it returns exactly
30000; otherwise the error rate `r = failedCount / sampleSize` maps to
120000 for `r > 0.5`, 60000 for `0.3 < r ≤ 0.5`, 45000 for `0.1 < r ≤ 0.3`
and 30000 for `r ≤ 0.1`, boundaries falling to the lower tier. -/
theorem calculateSmartDelay_tiers (acct : Nat) (history : Option (List TweetRecord)) :
    (history = none → calculateSmartDelay acct history = 30000) ∧
    ∀ h, history = some h →
      (((sampledOutcomes acct h).length < 3 →
          calculateSmartDelay acct history = 30000) ∧
       (3 ≤ (sampledOutcomes acct h).length →
         ((1/2 < errorRateOf acct h →
             calculateSmartDelay acct history = 120000) ∧
          (3/10 < errorRateOf acct h → errorRateOf acct h ≤ 1/2 →
             calculateSmartDelay acct history = 60000) ∧
          (1/10 < errorRateOf acct h → errorRateOf acct h ≤ 3/10 →
             calculateSmartDelay acct history = 45000) ∧
          (errorRateOf acct h ≤ 1/10 →
             calculateSmartDelay acct history = 30000)))) := by
  constructor
  · intro hnone; subst hnone; rfl
  · intro h hh; subst hh
    rw [calculateSmartDelay_some]
    constructor
    · intro hlt; rw [if_pos hlt]
    · intro hge
      rw [if_neg (by omega)]
      refine ⟨fun h1 => by rw [if_pos h1], fun h1 h2 => ?_, fun h1 h2 => ?_, fun h1 => ?_⟩
      · rw [if_neg (by linarith), if_pos h1]
      · rw [if_neg (by linarith), if_neg (by linarith), if_pos h1]
      · rw [if_neg (by linarith), if_neg (by linarith), if_neg (by linarith)]

/-- Witness for claim C3: a history whose sample for account 1 has 4 entries
with 2 failures, an error rate of exactly 0.5, falls to the 60000 tier. -/
theorem calculateSmartDelay_tiers_witness :
    calculateSmartDelay 1 (some
      [⟨[], [], [⟨1, false, false, none, none⟩]⟩,
       ⟨[], [], [⟨1, false, false, none, none⟩]⟩,
       ⟨[], [], [⟨1, true, false, some (str "9"), none⟩]⟩,
       ⟨[], [], [⟨1, true, false, some (str "9"), none⟩]⟩]) = 60000 := by
  have h := (calculateSmartDelay_tiers 1 (some
      [⟨[], [], [⟨1, false, false, none, none⟩]⟩,
       ⟨[], [], [⟨1, false, false, none, none⟩]⟩,
       ⟨[], [], [⟨1, true, false, some (str "9"), none⟩]⟩,
       ⟨[], [], [⟨1, true, false, some (str "9"), none⟩]⟩])).2 _ rfl
  refine (h.2 (by decide)).2.1 ?_ ?_
  · show (3 : ℚ)/10 < errorRateOf 1 _
    rw [show errorRateOf 1
      [⟨[], [], [⟨1, false, false, none, none⟩]⟩,
       ⟨[], [], [⟨1, false, false, none, none⟩]⟩,
       ⟨[], [], [⟨1, true, false, some (str "9"), none⟩]⟩,
       ⟨[], [], [⟨1, true, false, some (str "9"), none⟩]⟩] = (2 : ℚ)/4 from by
        unfold errorRateOf; norm_num [show (sampledOutcomes 1
          [⟨[], [], [⟨1, false, false, none, none⟩]⟩,
           ⟨[], [], [⟨1, false, false, none, none⟩]⟩,
           ⟨[], [], [⟨1, true, false, some (str "9"), none⟩]⟩,
           ⟨[], [], [⟨1, true, false, some (str "9"), none⟩]⟩] : List AccountOutcome)
          = [⟨1, true, false, some (str "9"), none⟩, ⟨1, true, false, some (str "9"), none⟩,
             ⟨1, false, false, none, none⟩, ⟨1, false, false, none, none⟩] from by decide]]
    norm_num
  · show errorRateOf 1 _ ≤ (1 : ℚ)/2
    rw [show errorRateOf 1
      [⟨[], [], [⟨1, false, false, none, none⟩]⟩,
       ⟨[], [], [⟨1, false, false, none, none⟩]⟩,
       ⟨[], [], [⟨1, true, false, some (str "9"), none⟩]⟩,
       ⟨[], [], [⟨1, true, false, some (str "9"), none⟩]⟩] = (2 : ℚ)/4 from by
        unfold errorRateOf; norm_num [show (sampledOutcomes 1
          [⟨[], [], [⟨1, false, false, none, none⟩]⟩,
           ⟨[], [], [⟨1, false, false, none, none⟩]⟩,
           ⟨[], [], [⟨1, true, false, some (str "9"), none⟩]⟩,
           ⟨[], [], [⟨1, true, false, some (str "9"), none⟩]⟩] : List AccountOutcome)
          = [⟨1, true, false, some (str "9"), none⟩, ⟨1, true, false, some (str "9"), none⟩,
             ⟨1, false, false, none, none⟩, ⟨1, false, false, none, none⟩] from by decide]]
    norm_num

/-! ### Helper lemmas about the posting primitive -/

theorem callsMade_invalid (text : List Char) (h : text.length = 0 ∨ 280 < text.length) :
    callsMade text = [] := by
  rcases h with h | h
  · simp [callsMade, h]
  · have h0 : ¬ text.length = 0 := by omega
    simp [callsMade, h0, h]

theorem callsMade_valid (text : List Char) (h0 : text.length ≠ 0)
    (h280 : text.length ≤ 280) : callsMade text = [text] := by
  simp [callsMade, h0]
  omega

theorem callsMade_length (text : List Char) : (callsMade text).length ≤ 1 := by
  unfold callsMade
  split
  · simp
  · split <;> simp

/-- A `tryPostOnce` on an invalid text throws the corresponding validation
error without consulting the provider. -/
theorem tryPostOnce_invalid (provider : Nat → ProviderResp) (text : List Char)
    (i : Nat) (h : text.length = 0 ∨ 280 < text.length) :
    tryPostOnce provider text i
      = .thrown ⟨none, if text.length = 0 then str "Tweet text is empty"
                 else str "Tweet text exceeds maximum length of 280 characters"⟩ := by
  rcases h with h | h
  · simp [tryPostOnce, h]
  · have h0 : ¬ text.length = 0 := by omega
    simp [tryPostOnce, h0, h]

/-- A posted result comes from a provider reply carrying a non-empty id. -/
theorem tryPostOnce_posted {provider : Nat → ProviderResp} {text : List Char}
    {i : Nat} {id : List Char} (h : tryPostOnce provider text i = .posted id) :
    provider i = .ok (some id) ∧ id ≠ [] := by
  unfold tryPostOnce at h
  split_ifs at h
  cases hp : provider i with
  | err e => rw [hp] at h; simp at h
  | ok idOpt =>
    cases idOpt with
    | none => rw [hp] at h; simp at h
    | some id' =>
      rw [hp] at h
      by_cases hid : id' = []
      · simp [hid] at h
      · simp [hid] at h
        subst h
        exact ⟨rfl, hid⟩

/-- On an invalid text, `postTweetWithClient` returns the terminal failure
directly, for any retry budget (validation errors carry no numeric code, so
neither retry guard fires). -/
theorem post_validation_aux (provider : Nat → ProviderResp) (clock : Nat → List Char)
    (acct : Nat) (rd : Option Nat) (r : Nat) (text : List Char) (i : Nat)
    (h : text.length = 0 ∨ 280 < text.length) :
    postTweetWithClient provider clock acct rd r text i
      = failTrace acct text
          ⟨none, if text.length = 0 then str "Tweet text is empty"
                 else str "Tweet text exceeds maximum length of 280 characters"⟩ := by
  have htp := tryPostOnce_invalid provider text i h
  cases r with
  | zero => simp [postTweetWithClient, htp]
  | succ k => simp [postTweetWithClient, htp]

/-- Every invocation's attempts list starts with the text it received. -/
theorem post_attempts_head (provider : Nat → ProviderResp) (clock : Nat → List Char)
    (acct : Nat) (rd : Option Nat) (r : Nat) (text : List Char) (i : Nat) :
    ∃ rest, (postTweetWithClient provider clock acct rd r text i).attempts
      = text :: rest := by
  cases r with
  | zero =>
    cases htp : tryPostOnce provider text i with
    | posted id => exact ⟨[], by simp [postTweetWithClient, htp, okTrace]⟩
    | thrown e => exact ⟨[], by simp [postTweetWithClient, htp, failTrace]⟩
  | succ k =>
    cases htp : tryPostOnce provider text i with
    | posted id => exact ⟨[], by simp [postTweetWithClient, htp, okTrace]⟩
    | thrown e =>
      by_cases h429 : e.code = some 429
      · exact ⟨(postTweetWithClient provider clock acct rd k text (i + 1)).attempts,
          by simp [postTweetWithClient, htp, h429]⟩
      · by_cases h187 : e.code = some 187
        · exact ⟨(postTweetWithClient provider clock acct rd k
              (addTimestamp text (clock i)) (i + 1)).attempts,
            by simp [postTweetWithClient, htp, h429, h187]⟩
        · exact ⟨[], by simp [postTweetWithClient, htp, h429, h187, failTrace]⟩

/-- Claim C4.  On an empty or over-280-character text, `postTweetWithClient`
fails immediately with a validation error: the provider endpoint is never
invoked, no retry (and no sleep) happens, and a failed result is
returned. -/
theorem postTweet_validation_rejects (provider : Nat → ProviderResp)
    (clock : Nat → List Char) (acct : Nat) (rd : Option Nat) (r : Nat)
    (text : List Char) (i : Nat) (h : text.length = 0 ∨ 280 < text.length) :
    (postTweetWithClient provider clock acct rd r text i).providerCalls = [] ∧
    (postTweetWithClient provider clock acct rd r text i).attempts = [text] ∧
    (postTweetWithClient provider clock acct rd r text i).sleeps = [] ∧
    (postTweetWithClient provider clock acct rd r text i).result.success = false ∧
    ∃ msg, (postTweetWithClient provider clock acct rd r text i).result.error
        = some ⟨none, msg⟩ ∧
      (msg = str "Tweet text is empty" ∨
       msg = str "Tweet text exceeds maximum length of 280 characters") := by
  rw [post_validation_aux provider clock acct rd r text i h]
  refine ⟨by simp [failTrace, callsMade_invalid text h], rfl, rfl, rfl, ?_⟩
  by_cases h0 : text.length = 0
  · exact ⟨str "Tweet text is empty", by simp [failTrace, h0], Or.inl rfl⟩
  · exact ⟨str "Tweet text exceeds maximum length of 280 characters",
      by simp [failTrace, h0], Or.inr rfl⟩

/-- Witness for claim C4 at a 281-character text: no provider call, failed
result. -/
theorem postTweet_validation_rejects_witness :
    280 < (List.replicate 281 'a').length ∧
    (postTweetWithClient (fun _ => .ok (some (str "1"))) (fun _ => str "12:00:00")
        1 none 1 (List.replicate 281 'a') 0).providerCalls = [] ∧
    (postTweetWithClient (fun _ => .ok (some (str "1"))) (fun _ => str "12:00:00")
        1 none 1 (List.replicate 281 'a') 0).result.success = false := by
  have h := postTweet_validation_rejects (fun _ => .ok (some (str "1")))
    (fun _ => str "12:00:00") 1 none 1 (List.replicate 281 'a') 0
    (Or.inr (by simp))
  exact ⟨by simp, h.1, h.2.2.2.1⟩

/-- Claim C9.  The retry recursion of `postTweetWithClient` terminates, and
with initial budget `r` it makes at most `r + 1` provider attempts (and
`r + 1` recursive invocations in total). -/
theorem postTweet_attempt_bound (provider : Nat → ProviderResp)
    (clock : Nat → List Char) (acct : Nat) (rd : Option Nat) :
    ∀ (r : Nat) (text : List Char) (i : Nat),
      (postTweetWithClient provider clock acct rd r text i).providerCalls.length
        ≤ r + 1 ∧
      (postTweetWithClient provider clock acct rd r text i).attempts.length
        ≤ r + 1 := by
  intro r
  induction r with
  | zero =>
    intro text i
    cases htp : tryPostOnce provider text i with
    | posted id => simp [postTweetWithClient, htp, okTrace]
    | thrown e =>
      refine ⟨?_, by simp [postTweetWithClient, htp, failTrace]⟩
      simp only [postTweetWithClient, htp, failTrace]
      exact callsMade_length text
  | succ k ih =>
    intro text i
    cases htp : tryPostOnce provider text i with
    | posted id => simp [postTweetWithClient, htp, okTrace]
    | thrown e =>
      by_cases h429 : e.code = some 429
      · have hrec := ih text (i + 1)
        have hc := callsMade_length text
        simp only [postTweetWithClient, htp, if_pos h429, List.length_append,
          List.length_cons]
        omega
      · by_cases h187 : e.code = some 187
        · have hrec := ih (addTimestamp text (clock i)) (i + 1)
          have hc := callsMade_length text
          simp only [postTweetWithClient, htp, if_neg h429, if_pos h187,
            List.length_append, List.length_cons]
          omega
        · have hc := callsMade_length text
          simp only [postTweetWithClient, htp, if_neg h429, if_neg h187, failTrace]
          constructor
          · exact le_trans hc (by omega)
          · simp

/-- A posted inner result returns the success trace, for any budget. -/
theorem post_posted (provider : Nat → ProviderResp) (clock : Nat → List Char)
    (acct : Nat) (rd : Option Nat) (r : Nat) (text : List Char) (i : Nat)
    (id : List Char) (htp : tryPostOnce provider text i = .posted id) :
    postTweetWithClient provider clock acct rd r text i = okTrace acct text id := by
  cases r <;> simp [postTweetWithClient, htp]

/-- With no budget left, any thrown error is terminal. -/
theorem post_zero_thrown (provider : Nat → ProviderResp) (clock : Nat → List Char)
    (acct : Nat) (rd : Option Nat) (text : List Char) (i : Nat)
    (e : TwitterErr) (htp : tryPostOnce provider text i = .thrown e) :
    postTweetWithClient provider clock acct rd 0 text i = failTrace acct text e := by
  simp [postTweetWithClient, htp]

/-- A thrown error that is neither 429 nor 187 is terminal, for any budget. -/
theorem post_thrown_terminal (provider : Nat → ProviderResp) (clock : Nat → List Char)
    (acct : Nat) (rd : Option Nat) (r : Nat) (text : List Char) (i : Nat)
    (e : TwitterErr) (htp : tryPostOnce provider text i = .thrown e)
    (h429 : e.code ≠ some 429) (h187 : e.code ≠ some 187) :
    postTweetWithClient provider clock acct rd r text i = failTrace acct text e := by
  cases r <;> simp [postTweetWithClient, htp, h429, h187]

/-- The 429 retry step: one unit of budget consumed, unmodified text. -/
theorem post_429_step (provider : Nat → ProviderResp) (clock : Nat → List Char)
    (acct : Nat) (rd : Option Nat) (k : Nat) (text : List Char) (i : Nat)
    (e : TwitterErr) (htp : tryPostOnce provider text i = .thrown e)
    (h429 : e.code = some 429) :
    postTweetWithClient provider clock acct rd (k + 1) text i
      = { result := (postTweetWithClient provider clock acct rd k text (i + 1)).result
          attempts :=
            text :: (postTweetWithClient provider clock acct rd k text (i + 1)).attempts
          providerCalls := callsMade text ++
            (postTweetWithClient provider clock acct rd k text (i + 1)).providerCalls
          failedSaves :=
            (postTweetWithClient provider clock acct rd k text (i + 1)).failedSaves
          sleeps := (rd.getD 300) * 1000 ::
            (postTweetWithClient provider clock acct rd k text (i + 1)).sleeps } := by
  simp [postTweetWithClient, htp, h429]

/-- The 187 retry step: one unit of budget consumed, timestamped text. -/
theorem post_187_step (provider : Nat → ProviderResp) (clock : Nat → List Char)
    (acct : Nat) (rd : Option Nat) (k : Nat) (text : List Char) (i : Nat)
    (e : TwitterErr) (htp : tryPostOnce provider text i = .thrown e)
    (h429 : e.code ≠ some 429) (h187 : e.code = some 187) :
    postTweetWithClient provider clock acct rd (k + 1) text i
      = { result := (postTweetWithClient provider clock acct rd k
              (addTimestamp text (clock i)) (i + 1)).result
          attempts := text :: (postTweetWithClient provider clock acct rd k
              (addTimestamp text (clock i)) (i + 1)).attempts
          providerCalls := callsMade text ++ (postTweetWithClient provider clock acct rd k
              (addTimestamp text (clock i)) (i + 1)).providerCalls
          failedSaves := (postTweetWithClient provider clock acct rd k
              (addTimestamp text (clock i)) (i + 1)).failedSaves
          sleeps := 2000 :: (postTweetWithClient provider clock acct rd k
              (addTimestamp text (clock i)) (i + 1)).sleeps } := by
  simp [postTweetWithClient, htp, h429, h187]

/-- Claim C8.  `postTweetWithClient` always returns a result value (the
embedding handles every thrown error; nothing escapes): on success the
result carries a non-empty remote identifier that some provider reply
produced, and on failure the result carries the causing error. -/
theorem postTweet_always_result (provider : Nat → ProviderResp)
    (clock : Nat → List Char) (acct : Nat) (rd : Option Nat) :
    ∀ (r : Nat) (text : List Char) (i : Nat),
      ((postTweetWithClient provider clock acct rd r text i).result.success = true →
        ∃ id, (postTweetWithClient provider clock acct rd r text i).result.tweetId
            = some id ∧ id ≠ [] ∧ ∃ n, provider n = .ok (some id)) ∧
      ((postTweetWithClient provider clock acct rd r text i).result.success = false →
        ∃ e, (postTweetWithClient provider clock acct rd r text i).result.error
            = some e) ∧
      (postTweetWithClient provider clock acct rd r text i).result.accountNumber
        = acct := by
  intro r
  induction r with
  | zero =>
    intro text i
    cases htp : tryPostOnce provider text i with
    | posted id =>
      obtain ⟨hp, hne⟩ := tryPostOnce_posted htp
      rw [post_posted provider clock acct rd 0 text i id htp]
      exact ⟨fun _ => ⟨id, rfl, hne, i, hp⟩, fun hf => by simp [okTrace] at hf, rfl⟩
    | thrown e =>
      rw [post_zero_thrown provider clock acct rd text i e htp]
      exact ⟨fun hs => by simp [failTrace] at hs, fun _ => ⟨e, rfl⟩, rfl⟩
  | succ k ih =>
    intro text i
    cases htp : tryPostOnce provider text i with
    | posted id =>
      obtain ⟨hp, hne⟩ := tryPostOnce_posted htp
      rw [post_posted provider clock acct rd (k + 1) text i id htp]
      exact ⟨fun _ => ⟨id, rfl, hne, i, hp⟩, fun hf => by simp [okTrace] at hf, rfl⟩
    | thrown e =>
      by_cases h429 : e.code = some 429
      · rw [post_429_step provider clock acct rd k text i e htp h429]
        exact ih text (i + 1)
      · by_cases h187 : e.code = some 187
        · rw [post_187_step provider clock acct rd k text i e htp h429 h187]
          exact ih (addTimestamp text (clock i)) (i + 1)
        · rw [post_thrown_terminal provider clock acct rd (k + 1) text i e htp h429 h187]
          exact ⟨fun hs => by simp [failTrace] at hs, fun _ => ⟨e, rfl⟩, rfl⟩

/-- Witness for claim C8: with a provider that replies with id `"99"`, the
returned result's identifier is that non-empty provider id. -/
theorem postTweet_always_result_witness :
    ∃ id, (postTweetWithClient (fun _ => .ok (some (str "99")))
        (fun _ => str "12:00:00") 1 none 1 (str "hello") 0).result.tweetId
          = some id ∧ id ≠ [] ∧
      ∃ n, (fun _ => ProviderResp.ok (some (str "99")) : Nat → ProviderResp) n
          = .ok (some id) :=
  (postTweet_always_result (fun _ => .ok (some (str "99")))
    (fun _ => str "12:00:00") 1 none 1 (str "hello") 0).1 (by decide)

/-! ### The duplicate-content mutation -/

/-- A found first occurrence is inside the text. -/
theorem firstOccur_le (pat : List Char) :
    ∀ (l : List Char) (j : Nat), firstOccur pat l = some j → j ≤ l.length := by
  intro l
  induction l with
  | nil =>
    intro j h
    unfold firstOccur at h
    by_cases hs : startsWith [] pat
    · simp [hs] at h; omega
    · simp [hs] at h
  | cons c rest ih =>
    intro j h
    unfold firstOccur at h
    by_cases hs : startsWith (c :: rest) pat
    · simp [hs] at h; omega
    · simp [hs] at h
      obtain ⟨a, ha, haj⟩ := h
      have := ih a ha
      simp only [List.length_cons]
      omega

/-- At a found first occurrence, the text from there on starts with the
pattern. -/
theorem firstOccur_startsWith_drop (pat : List Char) :
    ∀ (l : List Char) (j : Nat), firstOccur pat l = some j →
      startsWith (l.drop j) pat = true := by
  intro l
  induction l with
  | nil =>
    intro j h
    unfold firstOccur at h
    by_cases hs : startsWith [] pat
    · simp [hs] at h
      subst h
      simpa using hs
    · simp [hs] at h
  | cons c rest ih =>
    intro j h
    unfold firstOccur at h
    by_cases hs : startsWith (c :: rest) pat
    · simp [hs] at h
      subst h
      simpa using hs
    · simp [hs] at h
      obtain ⟨a, ha, haj⟩ := h
      subst haj
      simpa using ih a ha

/-- The mutation adds exactly 11 characters for an 8-character stamp. -/
theorem addTimestamp_length (text stamp : List Char) (hts : stamp.length = 8) :
    (addTimestamp text stamp).length = text.length + 11 := by
  unfold addTimestamp
  cases hf : firstOccur giverepToken text with
  | none => simp [hts]
  | some j =>
    have hj := firstOccur_le giverepToken text j hf
    have h1 : (text.take j).length = j := by
      rw [List.length_take]
      omega
    simp only [List.length_append, h1, List.length_cons, List.length_nil,
      List.length_drop, hts]
    omega

/-- Claim C5.  On a 187 (duplicate content) error with retries remaining,
the retried text is the original mutated by a bracketed time marker:
`"[" ++ stamp ++ "] "` inserted immediately before the first required
mention token `"@giverep"` when the text contains it, else
`" [" ++ stamp ++ "]"` appended at the end; the rest of the text is
unchanged (the mutated text is the untouched first-occurrence split of the
original around the inserted marker). -/
theorem postTweet_duplicate_mutation (provider : Nat → ProviderResp)
    (clock : Nat → List Char) (acct : Nat) (rd : Option Nat) (text : List Char)
    (r i : Nat) (e : TwitterErr)
    (h0 : text.length ≠ 0) (h280 : text.length ≤ 280)
    (hp : provider i = .err e) (hcode : e.code = some 187) :
    (∃ rest, (postTweetWithClient provider clock acct rd (r + 1) text i).attempts
        = text :: addTimestamp text (clock i) :: rest) ∧
    (∀ j, firstOccur giverepToken text = some j →
      (addTimestamp text (clock i)
          = text.take j ++ ('[' :: clock i ++ [']', ' ']) ++ text.drop j ∧
       startsWith (text.drop j) giverepToken = true ∧
       text.take j ++ text.drop j = text)) ∧
    (firstOccur giverepToken text = none →
      addTimestamp text (clock i) = text ++ (' ' :: '[' :: clock i ++ [']'])) := by
  have htp : tryPostOnce provider text i = .thrown e := by
    unfold tryPostOnce
    rw [if_neg h0, if_neg (by omega), hp]
  have h429 : e.code ≠ some 429 := by rw [hcode]; simp
  refine ⟨?_, ?_, ?_⟩
  · obtain ⟨rest, hrest⟩ := post_attempts_head provider clock acct rd r
      (addTimestamp text (clock i)) (i + 1)
    refine ⟨rest, ?_⟩
    rw [post_187_step provider clock acct rd r text i e htp h429 hcode]
    rw [hrest]
  · intro j hj
    exact ⟨by simp [addTimestamp, hj], firstOccur_startsWith_drop giverepToken text j hj,
      List.take_append_drop j text⟩
  · intro hn
    simp [addTimestamp, hn]

/-- Witness for claim C5 at the text `"join @giverep now"` (token at
index 5) and stamp `"12:00:00"`: the marker lands immediately before the
token. -/
theorem postTweet_duplicate_mutation_witness :
    (∃ rest, (postTweetWithClient (fun _ => .err ⟨some 187, str "dup"⟩)
        (fun _ => str "12:00:00") 1 none 1 (str "join @giverep now") 0).attempts
        = str "join @giverep now"
          :: addTimestamp (str "join @giverep now") (str "12:00:00") :: rest) ∧
    addTimestamp (str "join @giverep now") (str "12:00:00")
      = str "join [12:00:00] @giverep now" := by
  have h := postTweet_duplicate_mutation (fun _ => .err ⟨some 187, str "dup"⟩)
    (fun _ => str "12:00:00") 1 none (str "join @giverep now") 0 0
    ⟨some 187, str "dup"⟩ (by decide) (by decide) rfl rfl
  refine ⟨h.1, ?_⟩
  have h5 := (h.2.1 5 (by decide)).1
  rw [h5]
  decide

/-- Claim C10.  The duplicate-content mutation always lengthens the text by
exactly 11 characters, so for a valid text of length between 270 and 280
that draws a 187 error with retries remaining, the mutated retry text
exceeds 280 characters: the retry fails validation (the returned error is
the length validation error), the provider is invoked only once (with the
original text), and the failure-queue record carries the mutated text, which
differs from the caller's original. -/
theorem postTweet_187_overflow (provider : Nat → ProviderResp)
    (clock : Nat → List Char) (acct : Nat) (rd : Option Nat) (text : List Char)
    (r i : Nat) (e : TwitterErr)
    (hts : (clock i).length = 8)
    (hlo : 270 ≤ text.length) (hhi : text.length ≤ 280)
    (hp : provider i = .err e) (hcode : e.code = some 187) :
    (∀ s stamp : List Char, stamp.length = 8 →
        (addTimestamp s stamp).length = s.length + 11) ∧
    (postTweetWithClient provider clock acct rd (r + 1) text i).providerCalls
      = [text] ∧
    (postTweetWithClient provider clock acct rd (r + 1) text i).result.success
      = false ∧
    (postTweetWithClient provider clock acct rd (r + 1) text i).result.error
      = some ⟨none, str "Tweet text exceeds maximum length of 280 characters"⟩ ∧
    (postTweetWithClient provider clock acct rd (r + 1) text i).failedSaves
      = [(addTimestamp text (clock i), acct)] ∧
    addTimestamp text (clock i) ≠ text := by
  have hmlen : (addTimestamp text (clock i)).length = text.length + 11 :=
    addTimestamp_length text (clock i) hts
  have hover : 280 < (addTimestamp text (clock i)).length := by omega
  have hm0 : ¬ (addTimestamp text (clock i)).length = 0 := by omega
  have htp : tryPostOnce provider text i = .thrown e := by
    unfold tryPostOnce
    rw [if_neg (by omega), if_neg (by omega), hp]
  have h429 : e.code ≠ some 429 := by rw [hcode]; simp
  have hrec := post_validation_aux provider clock acct rd r
    (addTimestamp text (clock i)) (i + 1) (Or.inr hover)
  rw [if_neg hm0] at hrec
  rw [post_187_step provider clock acct rd r text i e htp h429 hcode, hrec]
  refine ⟨fun s stamp h => addTimestamp_length s stamp h, ?_, rfl, rfl, rfl, ?_⟩
  · show callsMade text ++ (failTrace acct (addTimestamp text (clock i)) _).providerCalls
      = [text]
    rw [callsMade_valid text (by omega) hhi]
    simp [failTrace, callsMade_invalid _ (Or.inr hover)]
  · intro hused
    have := congrArg List.length hused
    omega

/-- Witness for claim C10 at a 270-character text: exactly one provider
call, failed result with the length validation error, mutated text in the
failure queue. -/
theorem postTweet_187_overflow_witness :
    (postTweetWithClient (fun _ => .err ⟨some 187, str "dup"⟩)
        (fun _ => str "12:00:00") 1 none 1 (List.replicate 270 'a') 0).providerCalls
      = [List.replicate 270 'a'] ∧
    (postTweetWithClient (fun _ => .err ⟨some 187, str "dup"⟩)
        (fun _ => str "12:00:00") 1 none 1 (List.replicate 270 'a') 0).result.error
      = some ⟨none, str "Tweet text exceeds maximum length of 280 characters"⟩ ∧
    (postTweetWithClient (fun _ => .err ⟨some 187, str "dup"⟩)
        (fun _ => str "12:00:00") 1 none 1 (List.replicate 270 'a') 0).failedSaves
      = [(addTimestamp (List.replicate 270 'a') (str "12:00:00"), 1)] := by
  have h := postTweet_187_overflow (fun _ => .err ⟨some 187, str "dup"⟩)
    (fun _ => str "12:00:00") 1 none (List.replicate 270 'a') 0 0
    ⟨some 187, str "dup"⟩ (by decide) (by simp) (by simp) rfl rfl
  exact ⟨h.2.1, h.2.2.2.1, h.2.2.2.2.1⟩

/-! ### Grouping lemmas for `retryFailedTweets` -/

theorem lookup_addToGroup_self (m : List (Nat × List FailedRecord)) (r : FailedRecord) :
    lookupGroup (addToGroup m r) r.accountNumber
      = some ((lookupGroup m r.accountNumber).getD [] ++ [r]) := by
  induction m with
  | nil => simp [addToGroup, lookupGroup]
  | cons p rest ih =>
    obtain ⟨k, g⟩ := p
    by_cases hk : k = r.accountNumber
    · subst hk
      simp [addToGroup, lookupGroup]
    · simp [addToGroup, lookupGroup, hk, ih]

theorem lookup_addToGroup_ne (m : List (Nat × List FailedRecord)) (r : FailedRecord)
    (a : Nat) (ha : a ≠ r.accountNumber) :
    lookupGroup (addToGroup m r) a = lookupGroup m a := by
  have ha' : ¬ r.accountNumber = a := fun h => ha h.symm
  induction m with
  | nil => simp [addToGroup, lookupGroup, ha']
  | cons p rest ih =>
    obtain ⟨k, g⟩ := p
    by_cases hk : k = r.accountNumber
    · subst hk
      simp [addToGroup, lookupGroup, ha']
    · by_cases hka : k = a
      · subst hka
        simp [addToGroup, lookupGroup, hk]
      · simp [addToGroup, lookupGroup, hk, hka, ih]

theorem lookup_foldl_some (a : Nat) :
    ∀ (l : List FailedRecord) (m : List (Nat × List FailedRecord))
      (g : List FailedRecord), lookupGroup m a = some g →
      lookupGroup (l.foldl addToGroup m) a
        = some (g ++ l.filter (fun r => r.accountNumber == a)) := by
  intro l
  induction l with
  | nil => intro m g hm; simpa using hm
  | cons r rest ih =>
    intro m g hm
    simp only [List.foldl_cons]
    by_cases ha : r.accountNumber = a
    · have h1 : lookupGroup (addToGroup m r) a = some (g ++ [r]) := by
        rw [← ha] at hm ⊢
        rw [lookup_addToGroup_self, hm]
        rfl
      rw [ih _ _ h1]
      simp [List.filter_cons, ha]
    · have h1 : lookupGroup (addToGroup m r) a = some g := by
        rw [lookup_addToGroup_ne m r a (fun h => ha h.symm)]
        exact hm
      rw [ih _ _ h1]
      simp [List.filter_cons, ha]

theorem lookup_foldl_none (a : Nat) :
    ∀ (l : List FailedRecord) (m : List (Nat × List FailedRecord)),
      lookupGroup m a = none →
      lookupGroup (l.foldl addToGroup m) a
        = if l.filter (fun r => r.accountNumber == a) = [] then none
          else some (l.filter (fun r => r.accountNumber == a)) := by
  intro l
  induction l with
  | nil => intro m hm; simpa using hm
  | cons r rest ih =>
    intro m hm
    simp only [List.foldl_cons]
    by_cases ha : r.accountNumber = a
    · have h1 : lookupGroup (addToGroup m r) a = some [r] := by
        rw [← ha] at hm ⊢
        rw [lookup_addToGroup_self, hm]
        rfl
      rw [lookup_foldl_some a rest _ [r] h1]
      simp [List.filter_cons, ha]
    · have h1 : lookupGroup (addToGroup m r) a = none := by
        rw [lookup_addToGroup_ne m r a (fun h => ha h.symm)]
        exact hm
      rw [ih _ h1]
      simp [List.filter_cons, ha]

theorem keys_addToGroup (m : List (Nat × List FailedRecord)) (r : FailedRecord) :
    (addToGroup m r).map Prod.fst
      = if r.accountNumber ∈ m.map Prod.fst then m.map Prod.fst
        else m.map Prod.fst ++ [r.accountNumber] := by
  induction m with
  | nil => simp [addToGroup]
  | cons p rest ih =>
    obtain ⟨k, g⟩ := p
    by_cases hk : k = r.accountNumber
    · subst hk
      simp [addToGroup]
    · have hk' : ¬ r.accountNumber = k := fun h => hk h.symm
      by_cases hmem : r.accountNumber ∈ rest.map Prod.fst
      · simp [addToGroup, hk, ih, hmem, hk']
      · simp [addToGroup, hk, ih, hmem, hk']

theorem mem_keys_addToGroup (m : List (Nat × List FailedRecord)) (r : FailedRecord)
    (a : Nat) :
    a ∈ (addToGroup m r).map Prod.fst
      ↔ a ∈ m.map Prod.fst ∨ a = r.accountNumber := by
  rw [keys_addToGroup]
  split
  · constructor
    · exact Or.inl
    · rintro (h | h)
      · exact h
      · subst h; assumption
  · simp

theorem mem_keys_foldl (a : Nat) :
    ∀ (l : List FailedRecord) (m : List (Nat × List FailedRecord)),
      a ∈ (l.foldl addToGroup m).map Prod.fst
        ↔ a ∈ m.map Prod.fst ∨ a ∈ l.map (·.accountNumber) := by
  intro l
  induction l with
  | nil => intro m; simp
  | cons r rest ih =>
    intro m
    simp only [List.foldl_cons, List.map_cons, List.mem_cons]
    rw [ih (addToGroup m r), mem_keys_addToGroup]
    tauto

theorem nodup_keys_foldl :
    ∀ (l : List FailedRecord) (m : List (Nat × List FailedRecord)),
      (m.map Prod.fst).Nodup → ((l.foldl addToGroup m).map Prod.fst).Nodup := by
  intro l
  induction l with
  | nil => intro m hm; simpa using hm
  | cons r rest ih =>
    intro m hm
    simp only [List.foldl_cons]
    refine ih (addToGroup m r) ?_
    rw [keys_addToGroup]
    split
    · exact hm
    · rename_i hmem
      simp [List.nodup_append, hm, hmem]

theorem flatMap_eq_of_eq_on {α β : Type} (f g : α → List β) :
    ∀ (ks : List α), (∀ k ∈ ks, f k = g k) → ks.flatMap f = ks.flatMap g := by
  intro ks
  induction ks with
  | nil => intro _; rfl
  | cons k rest ih =>
    intro h
    simp only [List.flatMap_cons]
    rw [h k (by simp), ih (fun x hx => h x (by simp [hx]))]

/-- Claim C7.  `retryFailedTweets` returns `false` and leaves the queue file
untouched when the file is absent or holds an empty list; otherwise it
groups the entries by account number, skips every group with no matching
client, replays the remaining entries per group in their original order with
a retry budget of 1, unconditionally overwrites the queue with `[]`, and
returns `true`. -/
theorem retryFailedTweets_spec (clients : List Client) (file : QueueFile) :
    (file = .absent → retryFailedTweets clients file = (false, .absent, [])) ∧
    (file = .parsed [] → retryFailedTweets clients file = (false, .parsed [], [])) ∧
    (∀ l, file = .parsed l → l ≠ [] →
      retryFailedTweets clients file
        = (true, .parsed [],
            (List.insertionSort (· ≤ ·) ((l.map (·.accountNumber)).dedup)).flatMap
              (fun k =>
                match clients.find? (fun c => c.accountNumber == k) with
                | none => []
                | some _ =>
                  (l.filter (fun r => r.accountNumber == k)).map
                    (fun t => ⟨k, t.text, 1⟩)))) := by
  refine ⟨fun h => by subst h; rfl, fun h => by subst h; rfl, ?_⟩
  intro l hfile hne
  subst hfile
  have hlen : ¬ l.length = 0 := by
    intro h
    exact hne (List.length_eq_zero.mp h)
  have hperm : List.Perm ((groupByAccount l).map Prod.fst)
      ((l.map (·.accountNumber)).dedup) := by
    apply List.perm_of_nodup_nodup_toFinset_eq
    · exact nodup_keys_foldl l [] (by simp)
    · exact (l.map (·.accountNumber)).nodup_dedup
    · ext a
      simp only [List.mem_toFinset, List.mem_dedup, groupByAccount]
      rw [mem_keys_foldl a l []]
      simp
  have hsortEq : List.insertionSort (· ≤ ·) ((groupByAccount l).map Prod.fst)
      = List.insertionSort (· ≤ ·) ((l.map (·.accountNumber)).dedup) :=
    List.eq_of_perm_of_sorted
      ((List.perm_insertionSort _ _).trans
        (hperm.trans (List.perm_insertionSort _ _).symm))
      (List.sorted_insertionSort _ _) (List.sorted_insertionSort _ _)
  have hbranch : ∀ k ∈ List.insertionSort (· ≤ ·) ((l.map (·.accountNumber)).dedup),
      (match clients.find? (fun c => c.accountNumber == k) with
       | none => ([] : List ReplayCall)
       | some clientObj =>
         match lookupGroup (groupByAccount l) k with
         | some accountTweets =>
           accountTweets.map (fun (tweet : FailedRecord) =>
             (⟨clientObj.accountNumber, tweet.text, 1⟩ : ReplayCall))
         | none => [])
      = (match clients.find? (fun c => c.accountNumber == k) with
         | none => ([] : List ReplayCall)
         | some _ =>
           (l.filter (fun (r : FailedRecord) => r.accountNumber == k)).map
             (fun (t : FailedRecord) => (⟨k, t.text, 1⟩ : ReplayCall))) := by
    intro k hk
    have hkmem : k ∈ l.map (·.accountNumber) := by
      rw [List.mem_insertionSort, List.mem_dedup] at hk
      exact hk
    have hfil : l.filter (fun r => r.accountNumber == k) ≠ [] := by
      rw [List.mem_map] at hkmem
      obtain ⟨r, hrl, hrk⟩ := hkmem
      intro hcon
      have : r ∈ l.filter (fun r => r.accountNumber == k) := by
        rw [List.mem_filter]
        exact ⟨hrl, by simp [hrk]⟩
      rw [hcon] at this
      simp at this
    have hlook : lookupGroup (groupByAccount l) k
        = some (l.filter (fun r => r.accountNumber == k)) := by
      simp only [groupByAccount]
      rw [lookup_foldl_none k l [] (by rfl), if_neg hfil]
    cases hfind : clients.find? (fun c => c.accountNumber == k) with
    | none => simp [hfind]
    | some clientObj =>
      have hacct : clientObj.accountNumber = k := by
        have hb := List.find?_some hfind
        exact eq_of_beq hb
      simp only [hfind, hlook, hacct]
  simp only [retryFailedTweets]
  rw [if_neg hlen]
  rw [hsortEq, flatMap_eq_of_eq_on _ _ _ hbranch]

/-- Witness for claim C7: a three-entry queue for accounts 1, 2, 1 with only
account 1 configured replays account 1's two entries in original order with
budget 1 and clears the queue. -/
theorem retryFailedTweets_spec_witness :
    retryFailedTweets [⟨1⟩]
        (.parsed [⟨[], str "t1", 1⟩, ⟨[], str "t2", 2⟩, ⟨[], str "t3", 1⟩])
      = (true, .parsed [], [⟨1, str "t1", 1⟩, ⟨1, str "t3", 1⟩]) := by
  rw [(retryFailedTweets_spec [⟨1⟩]
      (.parsed [⟨[], str "t1", 1⟩, ⟨[], str "t2", 2⟩, ⟨[], str "t3", 1⟩])).2.2
    [⟨[], str "t1", 1⟩, ⟨[], str "t2", 2⟩, ⟨[], str "t3", 1⟩] rfl (by simp)]
  decide

end TwitterBot
